import Mathlib

/-!
Shallow embedding of the wallet-service ledger engine.

The embedding translates the Go sources of the repository:
* `internal/domain` — `Wallet`, `Transaction`, `TransactionType`,
  `DollarsToMinorUnits`;
* the `walletService` methods (`CreateWallet`, `GetWallet`, `Deposit`,
  `Transfer`, `GetTransactions`, cache invalidation helpers);
* `internal/repository/transaction.go` — `transactionRepository.GetByWalletID`.

Modelling conventions:
* Balances and amounts in minor units are Go `int64` values carried as `ℤ`;
  the balance additions and subtractions wrap two's-complement modulo 2^64
  (`wrap64`). The wrapped operations `addInt64`/`subInt64` coincide with
  Go's `int64` arithmetic on every pair of int64-representable operands —
  all a Go execution can produce — and extend by the exact sum elsewhere.
* Dollar amounts crossing the engine boundary (`float64` in Go) are modelled
  as exact rationals (`ℚ`); Go's `int64(x)` float-to-int conversion truncates
  toward zero, which `DollarsToMinorUnits` mirrors. The float64 rounding of
  `dollars * 100` can differ from the exact rational product by one minor
  unit on decimals with no exact binary representation, and Go's conversion
  of an out-of-range float is implementation-dependent; every concrete
  evaluation below therefore uses amounts whose float64 and exact
  conversions coincide and stay in range.
* `uuid.New()` is modelled as a fresh-identifier supply (`nextUUID` counter):
  distinct draws yield distinct identifiers.
* The relational store is the `wallets`/`transactions` lists inside
  `EngineState`; `db.Transaction` (commit/rollback) is modelled by returning
  either the mutated state (commit) or the original state (rollback).
  Infrastructure faults in the storage calls of `Deposit` and `Transfer` are
  injected through explicit fault profiles; an injected fault makes the
  corresponding storage call return a non-record-not-found error.
* The cache gateway (Redis) is an association list of cells plus a
  `cacheDown` flag: when the cache is down every `Get` errors and `Set`/`Del`
  are silently ignored, exactly how the Go code treats Redis errors.
  A `corrupt` cache value models an entry whose JSON does not unmarshal.
* Cache keys are the `fmt.Sprintf` strings, modelled as `List Char`.
* Row creation timestamps (`created_at`) are stamped from a logical clock
  in the state. `ORDER BY created_at DESC` constrains only that the rows of
  a query arrive sorted descending by creation time; the query names no
  secondary sort key, so the relative order of rows with equal timestamps is
  the database's choice. The repository read is therefore parametrized by
  the row order the database returns, constrained by `ordersByCreatedDesc`.
* Each mutating operation also returns its trace of storage events, so that
  "no storage access happened" is the trace being `[]`.
-/

deriving instance DecidableEq for Except

namespace WalletSpec

/-- Transaction kinds, from `domain.TransactionType`. -/
inductive TransactionType where
  | deposit
  | transfer
  | withdraw
deriving DecidableEq

/-- `domain.Wallet`: identifier, owning user, balance in minor units. -/
structure Wallet where
  id : Nat
  userID : Nat
  balance : ℤ
deriving DecidableEq

/-- `domain.Transaction`: one immutable ledger record. -/
structure Transaction where
  walletID : Nat
  type : TransactionType
  amount : ℤ
  balanceBefore : ℤ
  balanceAfter : ℤ
  fromWalletID : Option Nat
  toWalletID : Option Nat
  transactionUUID : Nat
  description : String
  createdAt : Nat
deriving DecidableEq

/-- Model of `domain.DollarsToMinorUnits`: Go computes
`int64(dollars * 100)`, the truncation toward zero of the product; on the
exact rational `dollars = num / den` that truncation is the truncated
integer quotient `(num * 100).tdiv den` (`Int.tdiv` rounds toward zero).
The float64 rounding of the product and the implementation-dependent
conversion of out-of-range floats are outside this exact model; all
concrete evaluations in this file use amounts where both agree. -/
def DollarsToMinorUnits (dollars : ℚ) : ℤ :=
  Int.tdiv (dollars.num * 100) dollars.den

/-- 2^63, the magnitude of the `int64` bounds. -/
def twoPow63 : ℤ := 9223372036854775808

/-- 2^64, the modulus of `int64` wraparound. -/
def twoPow64 : ℤ := 18446744073709551616

/-- The `int64` range [-2^63, 2^63). -/
abbrev inInt64 (x : ℤ) : Prop := -twoPow63 ≤ x ∧ x < twoPow63

/-- Two's-complement reduction into the `int64` range: the value a Go
`int64` holds after an overflowing operation. -/
def wrap64 (x : ℤ) : ℤ := (x + twoPow63) % twoPow64 - twoPow63

/-- Go's `int64` addition: on `int64`-representable operands — the only
operands a Go execution can supply, since both sides are `int64` by type —
the sum wraps modulo 2^64; on model values outside the `int64` range the
function extends by the exact sum. -/
def addInt64 (a b : ℤ) : ℤ :=
  if inInt64 a ∧ inInt64 b then wrap64 (a + b) else a + b

/-- Go's `int64` subtraction, wrapping like `addInt64`. -/
def subInt64 (a b : ℤ) : ℤ :=
  if inInt64 a ∧ inInt64 b then wrap64 (a - b) else a - b

/-- A value stored in the cache: a serialized wallet, a serialized
transaction page, or bytes that do not unmarshal into the expected type. -/
inductive CacheVal where
  | walletVal (w : Wallet)
  | txsVal (ts : List Transaction)
  | corrupt
deriving DecidableEq

/-- One cache entry: key, value and the TTL (in seconds) it was set with. -/
structure CacheCell where
  key : List Char
  val : CacheVal
  ttl : Nat
deriving DecidableEq

/-- Outcome of a cache `Get`: a hit with a value, a miss, or a cache fault
(connection error); the Go code treats miss and fault identically. -/
inductive CacheResult where
  | hit (v : CacheVal)
  | miss
  | fault
deriving DecidableEq

/-- The engine-visible world: users and wallets and transaction records in
the relational store (in insertion order), the auto-increment wallet key,
the fresh-identifier supply for transaction UUIDs, the logical clock stamping
`created_at`, and the cache gateway state. -/
structure EngineState where
  users : List Nat
  wallets : List Wallet
  transactions : List Transaction
  nextWalletID : Nat
  nextUUID : Nat
  clock : Nat
  cache : List CacheCell
  cacheDown : Bool
deriving DecidableEq

/-- Decimal digits of `n`, most significant first, as Go's `%d` prints a
nonnegative integer. -/
def natStr (n : Nat) : List Char :=
  if n = 0 then ['0'] else ((Nat.digits 10 n).map Nat.digitChar).reverse

/-- Cache key `fmt.Sprintf("wallet:%d", walletID)`. -/
def walletCacheKey (walletID : Nat) : List Char :=
  "wallet:".data ++ natStr walletID

/-- Cache key `fmt.Sprintf("user:%d", userID)`. -/
def userCacheKey (userID : Nat) : List Char :=
  "user:".data ++ natStr userID

/-- Cache key `fmt.Sprintf("wallet:%d:transactions:%d:%d", walletID, limit,
offset)`. -/
def txCacheKey (walletID limit offset : Nat) : List Char :=
  "wallet:".data ++ natStr walletID ++ ":transactions:".data ++
    natStr limit ++ [':'] ++ natStr offset

/-- The fixed part of the pattern `fmt.Sprintf("wallet:%d:transactions:*",
walletID)` used for bulk invalidation. -/
def txCacheKeyStart (walletID : Nat) : List Char :=
  "wallet:".data ++ natStr walletID ++ ":transactions:".data

/-- `redisClient.Get`: a fault when the cache is down, otherwise the first
cell stored under the key, or a miss. -/
def cacheGet (st : EngineState) (key : List Char) : CacheResult :=
  if st.cacheDown then .fault
  else
    match st.cache.find? (fun c => c.key == key) with
    | some c => .hit c.val
    | none => .miss

/-- `redisClient.Set` with TTL; errors (cache down) are ignored by the Go
code, so the state is returned unchanged. -/
def cacheSet (st : EngineState) (key : List Char) (v : CacheVal) (ttl : Nat) :
    EngineState :=
  if st.cacheDown then st else { st with cache := ⟨key, v, ttl⟩ :: st.cache }

/-- `redisClient.Del` on one exact key; errors are ignored. -/
def cacheDel (st : EngineState) (key : List Char) : EngineState :=
  if st.cacheDown then st
  else { st with cache := st.cache.filter (fun c => !(c.key == key)) }

/-- `Scan`-and-`Del` over a key pattern: removes every cell whose key starts
with the given fixed part; errors are logged and ignored. -/
def cacheDelMatching (st : EngineState) (start : List Char) : EngineState :=
  if st.cacheDown then st
  else { st with cache := st.cache.filter (fun c => !(List.isPrefixOf start c.key)) }

/-- `walletService.invalidateWalletCache`. -/
def invalidateWalletCache (st : EngineState) (walletID : Nat) : EngineState :=
  cacheDel st (walletCacheKey walletID)

/-- `walletService.invalidateUserCache`. -/
def invalidateUserCache (st : EngineState) (userID : Nat) : EngineState :=
  cacheDel st (userCacheKey userID)

/-- `walletService.invalidateTransactionCache`: pattern sweep over all cached
pagination windows of the wallet. -/
def invalidateTransactionCache (st : EngineState) (walletID : Nat) : EngineState :=
  cacheDelMatching st (txCacheKeyStart walletID)

/-- The error taxonomy the engine signals, one constructor per distinct Go
error: the `errors.New` messages of the service, `gorm.ErrRecordNotFound`
propagated unwrapped, and any other storage error. -/
inductive Err where
  | invalidAmount
  | invalidTransfer
  | recordNotFound
  | sourceWalletNotFound
  | destWalletNotFound
  | insufficientBalance
  | userNotFound
  | storageFault
deriving DecidableEq

/-- Storage events of one engine call, in order: the trace is empty exactly
when the call never touched storage. -/
inductive Event where
  | beginTx
  | lockRead (walletID : Nat)
  | writeBalance (walletID : Nat) (newBalance : ℤ)
  | writeRecord (uuid : Nat)
  | commit
  | rollback
deriving DecidableEq

/-- Injected infrastructure faults for the three storage calls inside
`Deposit`'s transaction. -/
structure FaultProfile where
  readFault : Bool
  updateFault : Bool
  createFault : Bool
deriving DecidableEq

/-- The fault-free storage environment. -/
def noFaults : FaultProfile := ⟨false, false, false⟩

/-- Injected infrastructure faults for the six storage calls inside
`Transfer`'s transaction. -/
structure TransferFaultProfile where
  readFromFault : Bool
  readToFault : Bool
  updateFromFault : Bool
  updateToFault : Bool
  createFromFault : Bool
  createToFault : Bool
deriving DecidableEq

/-- The fault-free storage environment for `Transfer`. -/
def noTransferFaults : TransferFaultProfile :=
  ⟨false, false, false, false, false, false⟩

/-- `First(&wallet, walletID)`: look a wallet up by primary key. -/
def findWallet (ws : List Wallet) (walletID : Nat) : Option Wallet :=
  ws.find? (fun w => w.id == walletID)

/-- `tx.Model(&wallet).Update("balance", newBalance)`: set the balance of the
wallet with the given primary key. -/
def updateWalletBalance (ws : List Wallet) (walletID : Nat) (b : ℤ) : List Wallet :=
  ws.map (fun w => if w.id == walletID then { w with balance := b } else w)

/-- `walletService.CreateWallet`: check the user exists, insert a wallet with
balance zero, invalidate the user's cache entry. -/
def CreateWallet (st : EngineState) (userID : Nat) :
    Except Err Wallet × EngineState :=
  if st.users.contains userID then
    let w : Wallet := { id := st.nextWalletID, userID := userID, balance := 0 }
    (.ok w,
     invalidateUserCache
       { st with wallets := st.wallets ++ [w], nextWalletID := st.nextWalletID + 1 }
       userID)
  else (.error .userNotFound, st)

/-- The record `Deposit` constructs: the Go local `transaction`, with
`oldBalance = wallet.Balance` and
`newBalance = oldBalance + amountInMinorUnits` inlined. -/
def depositRecord (st : EngineState) (walletID : Nat) (amount : ℚ)
    (description : String) (wallet : Wallet) : Transaction :=
  { walletID := walletID, type := .deposit, amount := DollarsToMinorUnits amount,
    balanceBefore := wallet.balance,
    balanceAfter := addInt64 wallet.balance (DollarsToMinorUnits amount),
    fromWalletID := none, toWalletID := none,
    transactionUUID := st.nextUUID, description := description,
    createdAt := st.clock }

/-- `walletService.Deposit`: validate the dollar amount, convert to minor
units, then inside one storage transaction lock-read the wallet, write the
new balance, append one record, commit; on commit invalidate the wallet's
cache entry and its cached history pages. Any error inside the transaction
rolls back to the initial state. The Go locals (`amountInMinorUnits`,
`oldBalance`, `newBalance`, `transaction`) are inlined. -/
def Deposit (fp : FaultProfile) (st : EngineState) (walletID : Nat)
    (amount : ℚ) (description : String) :
    Except Err Transaction × EngineState × List Event :=
  if amount ≤ 0 then (.error .invalidAmount, st, [])
  else if fp.readFault then (.error .storageFault, st, [.beginTx, .rollback])
  else
    match findWallet st.wallets walletID with
    | none => (.error .recordNotFound, st, [.beginTx, .rollback])
    | some wallet =>
      if fp.updateFault then
        (.error .storageFault, st, [.beginTx, .lockRead walletID, .rollback])
      else if fp.createFault then
        (.error .storageFault, st,
         [.beginTx, .lockRead walletID,
          .writeBalance walletID (addInt64 wallet.balance (DollarsToMinorUnits amount)),
          .rollback])
      else
        (.ok (depositRecord st walletID amount description wallet),
         invalidateTransactionCache
           (invalidateWalletCache
             { st with
                 wallets :=
                   updateWalletBalance st.wallets walletID
                     (addInt64 wallet.balance (DollarsToMinorUnits amount)),
                 transactions :=
                   st.transactions ++ [depositRecord st walletID amount description wallet],
                 nextUUID := st.nextUUID + 1 }
             walletID)
           walletID,
         [.beginTx, .lockRead walletID,
          .writeBalance walletID (addInt64 wallet.balance (DollarsToMinorUnits amount)),
          .writeRecord st.nextUUID, .commit])

/-- The debit-side record `Transfer` constructs: the Go local
`fromTransaction`, with `fromOldBalance = fromWallet.Balance` and
`fromNewBalance = fromOldBalance - amountInMinorUnits` inlined. -/
def transferDebitRecord (st : EngineState) (fromWalletID toWalletID : Nat)
    (amount : ℚ) (description : String) (fromWallet : Wallet) : Transaction :=
  { walletID := fromWalletID, type := .transfer,
    amount := -(DollarsToMinorUnits amount),
    balanceBefore := fromWallet.balance,
    balanceAfter := subInt64 fromWallet.balance (DollarsToMinorUnits amount),
    fromWalletID := some fromWalletID, toWalletID := some toWalletID,
    transactionUUID := st.nextUUID, description := description,
    createdAt := st.clock }

/-- The credit-side record `Transfer` constructs: the Go local
`toTransaction`, with `toOldBalance = toWallet.Balance` and
`toNewBalance = toOldBalance + amountInMinorUnits` inlined; its identifier
is the second fresh draw. -/
def transferCreditRecord (st : EngineState) (fromWalletID toWalletID : Nat)
    (amount : ℚ) (description : String) (toWallet : Wallet) : Transaction :=
  { walletID := toWalletID, type := .transfer,
    amount := DollarsToMinorUnits amount,
    balanceBefore := toWallet.balance,
    balanceAfter := addInt64 toWallet.balance (DollarsToMinorUnits amount),
    fromWalletID := some fromWalletID, toWalletID := some toWalletID,
    transactionUUID := st.nextUUID + 1, description := description,
    createdAt := st.clock }

/-- The part of `walletService.Transfer`'s transaction callback after both
row locks are held (`migrate.go` lines 221-268): check sufficiency, write
both balances, create both records, commit; any error rolls back. -/
def transferLocked (fp : TransferFaultProfile) (st : EngineState)
    (fromWalletID toWalletID : Nat) (amount : ℚ) (description : String)
    (fromWallet toWallet : Wallet) :
    Except Err Transaction × EngineState × List Event :=
  if fromWallet.balance < DollarsToMinorUnits amount then
    (.error .insufficientBalance, st,
     [.beginTx, .lockRead fromWalletID, .lockRead toWalletID, .rollback])
  else if fp.updateFromFault then
    (.error .storageFault, st,
     [.beginTx, .lockRead fromWalletID, .lockRead toWalletID, .rollback])
  else if fp.updateToFault then
    (.error .storageFault, st,
     [.beginTx, .lockRead fromWalletID, .lockRead toWalletID,
      .writeBalance fromWalletID (subInt64 fromWallet.balance (DollarsToMinorUnits amount)),
      .rollback])
  else if fp.createFromFault then
    (.error .storageFault, st,
     [.beginTx, .lockRead fromWalletID, .lockRead toWalletID,
      .writeBalance fromWalletID (subInt64 fromWallet.balance (DollarsToMinorUnits amount)),
      .writeBalance toWalletID (addInt64 toWallet.balance (DollarsToMinorUnits amount)),
      .rollback])
  else if fp.createToFault then
    (.error .storageFault, st,
     [.beginTx, .lockRead fromWalletID, .lockRead toWalletID,
      .writeBalance fromWalletID (subInt64 fromWallet.balance (DollarsToMinorUnits amount)),
      .writeBalance toWalletID (addInt64 toWallet.balance (DollarsToMinorUnits amount)),
      .writeRecord st.nextUUID, .rollback])
  else
    (.ok (transferDebitRecord st fromWalletID toWalletID amount
            description fromWallet),
     invalidateTransactionCache
       (invalidateTransactionCache
         (invalidateWalletCache
           (invalidateWalletCache
             { st with
                 wallets :=
                   updateWalletBalance
                     (updateWalletBalance st.wallets fromWalletID
                       (subInt64 fromWallet.balance (DollarsToMinorUnits amount)))
                     toWalletID
                     (addInt64 toWallet.balance (DollarsToMinorUnits amount)),
                 transactions :=
                   st.transactions ++
                     [transferDebitRecord st fromWalletID toWalletID amount
                        description fromWallet,
                      transferCreditRecord st fromWalletID toWalletID amount
                        description toWallet],
                 nextUUID := st.nextUUID + 2 }
             fromWalletID)
           toWalletID)
         fromWalletID)
       toWalletID,
     [.beginTx, .lockRead fromWalletID, .lockRead toWalletID,
      .writeBalance fromWalletID (subInt64 fromWallet.balance (DollarsToMinorUnits amount)),
      .writeBalance toWalletID (addInt64 toWallet.balance (DollarsToMinorUnits amount)),
      .writeRecord st.nextUUID, .writeRecord (st.nextUUID + 1),
      .commit])

/-- The part of `walletService.Transfer`'s transaction callback after the
source wallet is locked (`migrate.go` lines 211-268): lock-read the
destination wallet, then continue with both locks held. -/
def transferWithSource (fp : TransferFaultProfile) (st : EngineState)
    (fromWalletID toWalletID : Nat) (amount : ℚ) (description : String)
    (fromWallet : Wallet) :
    Except Err Transaction × EngineState × List Event :=
  if fp.readToFault then
    (.error .storageFault, st, [.beginTx, .lockRead fromWalletID, .rollback])
  else
    match findWallet st.wallets toWalletID with
    | none =>
      (.error .destWalletNotFound, st,
       [.beginTx, .lockRead fromWalletID, .rollback])
    | some toWallet =>
      transferLocked fp st fromWalletID toWalletID amount description
        fromWallet toWallet

/-- `walletService.Transfer`: validate amount and distinctness, then inside
one storage transaction lock-read source then destination (in that argument
order) and run the locked section; commit on success, roll back on any
error. The Go locals (`amountInMinorUnits`, the old and new balances and
both records) are inlined, and the transaction callback is split into the
stages `transferWithSource` and `transferLocked`. -/
def Transfer (fp : TransferFaultProfile) (st : EngineState)
    (fromWalletID toWalletID : Nat) (amount : ℚ) (description : String) :
    Except Err Transaction × EngineState × List Event :=
  if amount ≤ 0 then (.error .invalidAmount, st, [])
  else if fromWalletID == toWalletID then (.error .invalidTransfer, st, [])
  else if fp.readFromFault then (.error .storageFault, st, [.beginTx, .rollback])
  else
    match findWallet st.wallets fromWalletID with
    | none => (.error .sourceWalletNotFound, st, [.beginTx, .rollback])
    | some fromWallet =>
      transferWithSource fp st fromWalletID toWalletID amount description
        fromWallet

/-- A cache hit carrying bytes that unmarshal into a `Wallet`. -/
def validWalletHit : CacheResult → Option Wallet
  | .hit (.walletVal w) => some w
  | _ => none

/-- `walletService.GetWallet`: on a valid cache hit return the cached wallet
directly; otherwise read the wallet from storage, cache it for five minutes
(300 seconds), and return it; record-not-found propagates. -/
def GetWallet (st : EngineState) (walletID : Nat) :
    Except Err Wallet × EngineState :=
  match validWalletHit (cacheGet st (walletCacheKey walletID)) with
  | some w => (.ok w, st)
  | none =>
    match findWallet st.wallets walletID with
    | none => (.error .recordNotFound, st)
    | some w => (.ok w, cacheSet st (walletCacheKey walletID) (.walletVal w) 300)

/-- The contract the SQL `ORDER BY created_at DESC` of
`transactionRepository.GetByWalletID` imposes on the rows the database
returns: some permutation of the wallet's records, sorted descending by
creation time. The query names no secondary sort key, so the relative order
of rows with equal `created_at` is the database's choice, not part of the
contract. -/
def ordersByCreatedDesc (txs : List Transaction) (walletID : Nat)
    (rows : List Transaction) : Prop :=
  rows.Perm (txs.filter (fun t => t.walletID == walletID)) ∧
  rows.Pairwise (fun x y => y.createdAt ≤ x.createdAt)

/-- `transactionRepository.GetByWalletID`, given the row order `rows` the
database chose for the query (constrained by `ordersByCreatedDesc` in the
theorems): the SQL applies `OFFSET` then `LIMIT` to the ordered rows. -/
def GetByWalletID (rows : List Transaction) (limit offset : Nat) :
    List Transaction :=
  (rows.drop offset).take limit

/-- A cache hit carrying bytes that unmarshal into a transaction page. -/
def validTxsHit : CacheResult → Option (List Transaction)
  | .hit (.txsVal ts) => some ts
  | _ => none

/-- `walletService.GetTransactions`, parametrized like the repository by the
row order the database chose for the query: on a valid cache hit return the
cached page; otherwise return the queried page and cache it for two minutes
(120 seconds) under the window's own key. -/
def GetTransactions (st : EngineState) (walletID : Nat) (limit offset : Nat)
    (rows : List Transaction) : Except Err (List Transaction) × EngineState :=
  match validTxsHit (cacheGet st (txCacheKey walletID limit offset)) with
  | some ts => (.ok ts, st)
  | none =>
    (.ok (GetByWalletID rows limit offset),
     cacheSet st (txCacheKey walletID limit offset)
       (.txsVal (GetByWalletID rows limit offset)) 120)

/-- One engine operation, with its injected storage-fault environment. -/
inductive Op where
  | createWallet (userID : Nat)
  | deposit (fp : FaultProfile) (walletID : Nat) (amount : ℚ) (description : String)
  | transfer (fp : TransferFaultProfile) (fromWalletID toWalletID : Nat)
      (amount : ℚ) (description : String)

/-- The state after one engine operation. -/
def runOp (st : EngineState) : Op → EngineState
  | .createWallet uid => (CreateWallet st uid).2
  | .deposit fp wid a d => (Deposit fp st wid a d).2.1
  | .transfer fp f t a d => (Transfer fp st f t a d).2.1

/-- The state after a sequence of engine operations. -/
def runOps (ops : List Op) (st : EngineState) : EngineState :=
  ops.foldl runOp st

/-- The order in which `Transfer` issues its two `FOR UPDATE` lock reads:
the source wallet of the call first, then the destination. -/
def transferLockOrder (fromWalletID toWalletID : Nat) : List Nat :=
  [fromWalletID, toWalletID]

/-- The wallet identifiers lock-read by a trace, in order. -/
def lockReads (ev : List Event) : List Nat :=
  ev.filterMap (fun e => match e with | .lockRead w => some w | _ => none)

/-- Every wallet balance is nonnegative. -/
abbrev allNonneg (ws : List Wallet) : Prop := ∀ w ∈ ws, 0 ≤ w.balance

/-- Every record satisfies the ledger equation. -/
abbrev recordsOk (ts : List Transaction) : Prop :=
  ∀ t ∈ ts, t.balanceAfter = t.balanceBefore + t.amount

/-- A small concrete world: two users, wallet 1 holding 100 minor units and
wallet 2 holding 50, an empty ledger and an empty, healthy cache. -/
def exState : EngineState :=
  ⟨[1, 2], [⟨1, 1, 100⟩, ⟨2, 2, 50⟩], [], 3, 0, 0, [], false⟩

/-- The world of spec example 3: wallet 1 holds 125.25 and wallet 2 holds
50.25, in minor units. -/
def exState3 : EngineState :=
  ⟨[1, 2], [⟨1, 1, 12525⟩, ⟨2, 2, 5025⟩], [], 3, 0, 0, [], false⟩

/-- A world whose cache holds a valid serialized copy of wallet 1. -/
def exCachedState : EngineState :=
  ⟨[1], [⟨1, 1, 100⟩], [], 2, 0, 0,
   [⟨walletCacheKey 1, .walletVal ⟨1, 1, 100⟩, 300⟩], false⟩

/-- A world whose cache gateway is unavailable (every Get faults). -/
def exDownState : EngineState :=
  ⟨[1], [⟨1, 1, 100⟩], [], 2, 0, 0, [], true⟩

/-- A world with one fresh zero-balance wallet. -/
def exZeroState : EngineState :=
  ⟨[1], [⟨1, 1, 0⟩], [], 2, 0, 0, [], false⟩

/-- A world in which wallet 1 already holds 2^56 dollars in minor units
(7205759403792793600, an `int64` value): the state one huge deposit
produces. -/
def exStateBig : EngineState :=
  ⟨[1], [⟨1, 1, 7205759403792793600⟩], [], 2, 0, 0, [], false⟩

@[simp]
theorem cacheDel_wallets (st : EngineState) (k : List Char) :
    (cacheDel st k).wallets = st.wallets := by
  unfold cacheDel; split <;> rfl

@[simp]
theorem cacheDel_transactions (st : EngineState) (k : List Char) :
    (cacheDel st k).transactions = st.transactions := by
  unfold cacheDel; split <;> rfl

@[simp]
theorem cacheDelMatching_wallets (st : EngineState) (s : List Char) :
    (cacheDelMatching st s).wallets = st.wallets := by
  unfold cacheDelMatching; split <;> rfl

@[simp]
theorem cacheDelMatching_transactions (st : EngineState) (s : List Char) :
    (cacheDelMatching st s).transactions = st.transactions := by
  unfold cacheDelMatching; split <;> rfl

@[simp]
theorem cacheSet_wallets (st : EngineState) (k : List Char) (v : CacheVal) (ttl : Nat) :
    (cacheSet st k v ttl).wallets = st.wallets := by
  unfold cacheSet; split <;> rfl

@[simp]
theorem cacheSet_transactions (st : EngineState) (k : List Char) (v : CacheVal) (ttl : Nat) :
    (cacheSet st k v ttl).transactions = st.transactions := by
  unfold cacheSet; split <;> rfl

@[simp]
theorem invalidateWalletCache_wallets (st : EngineState) (wid : Nat) :
    (invalidateWalletCache st wid).wallets = st.wallets := by
  unfold invalidateWalletCache; simp

@[simp]
theorem invalidateWalletCache_transactions (st : EngineState) (wid : Nat) :
    (invalidateWalletCache st wid).transactions = st.transactions := by
  unfold invalidateWalletCache; simp

@[simp]
theorem invalidateUserCache_wallets (st : EngineState) (uid : Nat) :
    (invalidateUserCache st uid).wallets = st.wallets := by
  unfold invalidateUserCache; simp

@[simp]
theorem invalidateUserCache_transactions (st : EngineState) (uid : Nat) :
    (invalidateUserCache st uid).transactions = st.transactions := by
  unfold invalidateUserCache; simp

@[simp]
theorem invalidateTransactionCache_wallets (st : EngineState) (wid : Nat) :
    (invalidateTransactionCache st wid).wallets = st.wallets := by
  unfold invalidateTransactionCache; simp

@[simp]
theorem invalidateTransactionCache_transactions (st : EngineState) (wid : Nat) :
    (invalidateTransactionCache st wid).transactions = st.transactions := by
  unfold invalidateTransactionCache; simp

theorem DollarsToMinorUnits_eq_floor {a : ℚ} (h : 0 ≤ a) :
    DollarsToMinorUnits a = ⌊a * 100⌋ := by
  have h1 : a * 100 = ((a.num * 100 : ℤ) : ℚ) / ((a.den : ℕ) : ℚ) := by
    conv_lhs => rw [← Rat.num_div_den a]
    push_cast
    ring
  have hnum : 0 ≤ a.num := Rat.num_nonneg.2 h
  rw [h1, Rat.floor_intCast_div_natCast]
  exact Int.tdiv_eq_ediv (by positivity) (by positivity)

theorem DollarsToMinorUnits_nonneg {a : ℚ} (h : 0 < a) :
    0 ≤ DollarsToMinorUnits a := by
  rw [DollarsToMinorUnits_eq_floor h.le]
  exact Int.floor_nonneg.2 (by positivity)

theorem DollarsToMinorUnits_eq_zero {a : ℚ} (h1 : 0 < a) (h2 : a * 100 < 1) :
    DollarsToMinorUnits a = 0 := by
  rw [DollarsToMinorUnits_eq_floor h1.le]
  rw [Int.floor_eq_zero_iff]
  exact ⟨by positivity, h2⟩

theorem wrap64_eq_self {x : ℤ} (h : inInt64 x) : wrap64 x = x := by
  obtain ⟨h1, h2⟩ := h
  unfold wrap64 twoPow63 twoPow64 at *
  rw [Int.emod_eq_of_lt (by omega) (by omega)]
  omega

theorem addInt64_eq_add {a b : ℤ} (ha : inInt64 a) (hb : inInt64 b)
    (hs : inInt64 (a + b)) : addInt64 a b = a + b := by
  unfold addInt64
  rw [if_pos ⟨ha, hb⟩, wrap64_eq_self hs]

theorem subInt64_eq_sub {a b : ℤ} (ha : inInt64 a) (hb : inInt64 b)
    (hs : inInt64 (a - b)) : subInt64 a b = a - b := by
  unfold subInt64
  rw [if_pos ⟨ha, hb⟩, wrap64_eq_self hs]

theorem addInt64_zero (a : ℤ) : addInt64 a 0 = a := by
  unfold addInt64
  split
  next h => rw [add_zero]; exact wrap64_eq_self h.1
  next => rw [add_zero]

theorem findWallet_mem {ws : List Wallet} {wid : Nat} {w : Wallet}
    (h : findWallet ws wid = some w) : w ∈ ws :=
  List.mem_of_find?_eq_some h

theorem findWallet_id {ws : List Wallet} {wid : Nat} {w : Wallet}
    (h : findWallet ws wid = some w) : w.id = wid := by
  have := List.find?_some h
  simpa using this

theorem findWallet_updateWalletBalance_self (ws : List Wallet) (wid : Nat) (b : ℤ) :
    findWallet (updateWalletBalance ws wid b) wid =
      (findWallet ws wid).map (fun w => { w with balance := b }) := by
  induction ws with
  | nil => rfl
  | cons w ws ih =>
    by_cases h : w.id = wid
    · simp [updateWalletBalance, findWallet, h]
    · simp only [updateWalletBalance, List.map_cons, findWallet] at *
      rw [List.find?_cons_of_neg _ (by simp [h]), List.find?_cons_of_neg _ (by simp [h])]
      exact ih

theorem findWallet_updateWalletBalance_other {wid wid' : Nat} (ws : List Wallet)
    (b : ℤ) (h : wid ≠ wid') :
    findWallet (updateWalletBalance ws wid' b) wid = findWallet ws wid := by
  induction ws with
  | nil => rfl
  | cons w ws ih =>
    by_cases hw : w.id = wid'
    · have hww : ¬ w.id = wid := by omega
      simp only [updateWalletBalance, List.map_cons, findWallet] at *
      rw [if_pos (by simpa using hw)]
      rw [List.find?_cons_of_neg _ (by simp [hww]), List.find?_cons_of_neg _ (by simp [hww])]
      exact ih
    · simp only [updateWalletBalance, List.map_cons, findWallet] at *
      rw [if_neg (by simpa using hw)]
      by_cases hww : w.id = wid
      · rw [List.find?_cons_of_pos _ (by simp [hww]), List.find?_cons_of_pos _ (by simp [hww])]
      · rw [List.find?_cons_of_neg _ (by simp [hww]), List.find?_cons_of_neg _ (by simp [hww])]
        exact ih

theorem Deposit_ok {fp : FaultProfile} {st : EngineState} {wid : Nat} {a : ℚ}
    {d : String} {txn : Transaction} {st' : EngineState} {ev : List Event}
    (h : Deposit fp st wid a d = (.ok txn, st', ev)) :
    ¬ a ≤ 0 ∧
    ∃ wallet, findWallet st.wallets wid = some wallet ∧
      txn = depositRecord st wid a d wallet ∧
      st'.wallets =
        updateWalletBalance st.wallets wid
          (addInt64 wallet.balance (DollarsToMinorUnits a)) ∧
      st'.transactions = st.transactions ++ [depositRecord st wid a d wallet] := by
  unfold Deposit at h
  split at h
  · simp at h
  next hpos =>
    split at h
    · simp at h
    · split at h
      · simp at h
      next wallet hw =>
        split at h
        · simp at h
        · split at h
          · simp at h
          · simp only [Prod.mk.injEq, Except.ok.injEq] at h
            obtain ⟨h1, h2, h3⟩ := h
            subst h1
            exact ⟨hpos, wallet, hw, rfl, by rw [← h2]; simp, by rw [← h2]; simp⟩

theorem Deposit_rollback {fp : FaultProfile} {st : EngineState} {wid : Nat}
    {a : ℚ} {d : String} {e : Err} {st' : EngineState} {ev : List Event}
    (h : Deposit fp st wid a d = (.error e, st', ev)) : st' = st := by
  unfold Deposit at h
  split at h
  · simp only [Prod.mk.injEq] at h
    exact h.2.1.symm
  · split at h
    · simp only [Prod.mk.injEq] at h
      exact h.2.1.symm
    · split at h
      · simp only [Prod.mk.injEq] at h
        exact h.2.1.symm
      · split at h
        · simp only [Prod.mk.injEq] at h
          exact h.2.1.symm
        · split at h
          · simp only [Prod.mk.injEq] at h
            exact h.2.1.symm
          · simp at h

theorem transferLocked_ok {fp : TransferFaultProfile} {st : EngineState}
    {f t : Nat} {a : ℚ} {d : String} {fromWallet toWallet : Wallet}
    {txn : Transaction} {st' : EngineState} {ev : List Event}
    (h : transferLocked fp st f t a d fromWallet toWallet = (.ok txn, st', ev)) :
    ¬ fromWallet.balance < DollarsToMinorUnits a ∧
    txn = transferDebitRecord st f t a d fromWallet ∧
    st'.wallets =
      updateWalletBalance
        (updateWalletBalance st.wallets f
          (subInt64 fromWallet.balance (DollarsToMinorUnits a)))
        t (addInt64 toWallet.balance (DollarsToMinorUnits a)) ∧
    st'.transactions =
      st.transactions ++
        [transferDebitRecord st f t a d fromWallet,
         transferCreditRecord st f t a d toWallet] := by
  unfold transferLocked at h
  split at h
  · simp at h
  next hbal =>
    split at h
    · simp at h
    · split at h
      · simp at h
      · split at h
        · simp at h
        · split at h
          · simp at h
          · simp only [Prod.mk.injEq, Except.ok.injEq] at h
            obtain ⟨h1, h2, h3⟩ := h
            subst h1
            exact ⟨hbal, rfl, by rw [← h2]; simp, by rw [← h2]; simp⟩

theorem transferWithSource_ok {fp : TransferFaultProfile} {st : EngineState}
    {f t : Nat} {a : ℚ} {d : String} {fromWallet : Wallet}
    {txn : Transaction} {st' : EngineState} {ev : List Event}
    (h : transferWithSource fp st f t a d fromWallet = (.ok txn, st', ev)) :
    ∃ toWallet, findWallet st.wallets t = some toWallet ∧
      transferLocked fp st f t a d fromWallet toWallet = (.ok txn, st', ev) := by
  unfold transferWithSource at h
  split at h
  · simp at h
  · split at h
    · simp at h
    next toWallet hto => exact ⟨toWallet, hto, h⟩

theorem Transfer_ok {fp : TransferFaultProfile} {st : EngineState}
    {f t : Nat} {a : ℚ} {d : String}
    {txn : Transaction} {st' : EngineState} {ev : List Event}
    (h : Transfer fp st f t a d = (.ok txn, st', ev)) :
    ¬ a ≤ 0 ∧ f ≠ t ∧
    ∃ fromWallet, findWallet st.wallets f = some fromWallet ∧
      transferWithSource fp st f t a d fromWallet = (.ok txn, st', ev) := by
  unfold Transfer at h
  split at h
  · simp at h
  next hpos =>
    split at h
    next hne => simp at h
    next hne =>
      split at h
      · simp at h
      · split at h
        · simp at h
        next fromWallet hf =>
          exact ⟨hpos, by simpa using hne, fromWallet, hf, h⟩

theorem transferLocked_lockReads (fp : TransferFaultProfile) (st : EngineState)
    (f t : Nat) (a : ℚ) (d : String) (fromWallet toWallet : Wallet) :
    lockReads (transferLocked fp st f t a d fromWallet toWallet).2.2 = [f, t] := by
  unfold transferLocked
  split
  · simp [lockReads]
  · split
    · simp [lockReads]
    · split
      · simp [lockReads]
      · split
        · simp [lockReads]
        · split <;> simp [lockReads]

theorem Deposit_success (fp : FaultProfile) (st : EngineState) (wid : Nat)
    (a : ℚ) (d : String) (wallet : Wallet)
    (hpos : ¬ a ≤ 0) (hrf : fp.readFault = false) (huf : fp.updateFault = false)
    (hcf : fp.createFault = false) (hw : findWallet st.wallets wid = some wallet) :
    Deposit fp st wid a d =
      (.ok (depositRecord st wid a d wallet),
       invalidateTransactionCache
         (invalidateWalletCache
           { st with
               wallets :=
                 updateWalletBalance st.wallets wid
                   (addInt64 wallet.balance (DollarsToMinorUnits a)),
               transactions := st.transactions ++ [depositRecord st wid a d wallet],
               nextUUID := st.nextUUID + 1 }
           wid)
         wid,
       [.beginTx, .lockRead wid,
        .writeBalance wid (addInt64 wallet.balance (DollarsToMinorUnits a)),
        .writeRecord st.nextUUID, .commit]) := by
  simp [Deposit, hw, hpos, hrf, huf, hcf]

/-- C1: the claimed invariant fails on the code: Go's int64 balance
addition wraps, so two deposits of 2^56 dollars (each converting to
7205759403792793600 minor units, a valid int64) on a fresh zero-balance
wallet persist the negative balance -4035225266123964416 — the engine's own
operations drive a balance negative. -/
theorem engine_balance_overflow_negative :
    ¬ allNonneg ((runOps
        [Op.deposit noFaults 1 72057594037927936 "d",
         Op.deposit noFaults 1 72057594037927936 "d"] exZeroState).wallets) ∧
    (findWallet ((runOps
        [Op.deposit noFaults 1 72057594037927936 "d",
         Op.deposit noFaults 1 72057594037927936 "d"] exZeroState).wallets) 1).map
      Wallet.balance = some (-4035225266123964416) := by decide

/-- C2 counterexample: a deposit of 2^56 dollars on a wallet already holding
2^56 dollars in minor units writes a record whose persisted balance_after is
the int64-wrapped sum -4035225266123964416, so balance_after =
balance_before + amount fails for a record the engine writes. -/
theorem ledger_record_equation_counterexample :
    ¬ recordsOk ((Deposit noFaults exStateBig 1 72057594037927936
        "d").2.1.transactions) := by decide

/-- C2 amended: every record written by Deposit or Transfer satisfies the
int64 ledger equation — balance_after is the wrapped int64 sum of
balance_before and the signed movement (`addInt64` for the deposit and
credit records, `subInt64` of the debited amount for the debit record) —
and satisfies balance_after = balance_before + amount exactly whenever the
balances and amount involved are int64 values whose sum stays in the int64
range; balance_before is the balance read under the row lock and
balance_after is the balance persisted for that wallet in the same storage
transaction. -/
theorem ledger_record_equation_wrapped (st : EngineState) :
    (∀ fp wid a d txn st' ev, Deposit fp st wid a d = (.ok txn, st', ev) →
      txn.balanceAfter = addInt64 txn.balanceBefore txn.amount ∧
      (inInt64 txn.balanceBefore → inInt64 txn.amount →
        inInt64 (txn.balanceBefore + txn.amount) →
        txn.balanceAfter = txn.balanceBefore + txn.amount) ∧
      (findWallet st.wallets wid).map Wallet.balance = some txn.balanceBefore ∧
      (findWallet st'.wallets wid).map Wallet.balance = some txn.balanceAfter) ∧
    (∀ fp f t a d txn st' ev, Transfer fp st f t a d = (.ok txn, st', ev) →
      ∃ credit,
        st'.transactions = st.transactions ++ [txn, credit] ∧
        txn.balanceAfter = subInt64 txn.balanceBefore (DollarsToMinorUnits a) ∧
        credit.balanceAfter =
          addInt64 credit.balanceBefore (DollarsToMinorUnits a) ∧
        (inInt64 txn.balanceBefore → inInt64 (DollarsToMinorUnits a) →
          inInt64 (txn.balanceBefore - DollarsToMinorUnits a) →
          txn.balanceAfter = txn.balanceBefore + txn.amount) ∧
        (inInt64 credit.balanceBefore → inInt64 (DollarsToMinorUnits a) →
          inInt64 (credit.balanceBefore + DollarsToMinorUnits a) →
          credit.balanceAfter = credit.balanceBefore + credit.amount) ∧
        (findWallet st.wallets f).map Wallet.balance = some txn.balanceBefore ∧
        (findWallet st'.wallets f).map Wallet.balance = some txn.balanceAfter ∧
        (findWallet st.wallets t).map Wallet.balance = some credit.balanceBefore ∧
        (findWallet st'.wallets t).map Wallet.balance = some credit.balanceAfter) := by
  constructor
  · intro fp wid a d txn st' ev hd
    obtain ⟨hpos, wallet, hw, htxn, hwal, htx⟩ := Deposit_ok hd
    subst htxn
    refine ⟨by simp [depositRecord], ?_, ?_, ?_⟩
    · intro hb ham hs
      simp only [depositRecord] at *
      exact addInt64_eq_add hb ham hs
    · rw [hw]; simp [depositRecord]
    · rw [hwal, findWallet_updateWalletBalance_self, hw]
      simp [depositRecord]
  · intro fp f t a d txn st' ev htr
    obtain ⟨hpos, hne, fromWallet, hf, h2⟩ := Transfer_ok htr
    obtain ⟨toWallet, ht, h3⟩ := transferWithSource_ok h2
    obtain ⟨hbal, htxn, hwal, htx⟩ := transferLocked_ok h3
    subst htxn
    refine ⟨transferCreditRecord st f t a d toWallet, htx,
      by simp [transferDebitRecord], by simp [transferCreditRecord],
      ?_, ?_, ?_, ?_, ?_, ?_⟩
    · intro hb ham hs
      simp only [transferDebitRecord] at *
      rw [subInt64_eq_sub hb ham hs, sub_eq_add_neg]
    · intro hb ham hs
      simp only [transferCreditRecord] at *
      exact addInt64_eq_add hb ham hs
    · rw [hf]; simp [transferDebitRecord]
    · rw [hwal, findWallet_updateWalletBalance_other _ _ hne,
        findWallet_updateWalletBalance_self, hf]
      simp [transferDebitRecord]
    · rw [ht]; simp [transferCreditRecord]
    · rw [hwal, findWallet_updateWalletBalance_self,
        findWallet_updateWalletBalance_other _ _ (Ne.symm hne), ht]
      simp [transferCreditRecord]

/-- Concrete check of the C2 amended theorem: a 2-dollar deposit on wallet 1
of the example state, whose in-range sum makes the exact equation hold and
whose persisted balance is the record's balance_after. -/
theorem ledger_record_equation_wrapped_witness :
    (300 : ℤ) = 100 + 200 ∧
    (findWallet ([⟨1, 1, 300⟩, ⟨2, 2, 50⟩] : List Wallet) 1).map
      Wallet.balance = some 300 := by
  have h := (ledger_record_equation_wrapped exState).1 noFaults 1 2 "d"
    ⟨1, .deposit, 200, 100, 300, none, none, 0, "d", 0⟩
    ⟨[1, 2], [⟨1, 1, 300⟩, ⟨2, 2, 50⟩],
     [⟨1, .deposit, 200, 100, 300, none, none, 0, "d", 0⟩], 3, 1, 0, [], false⟩
    [.beginTx, .lockRead 1, .writeBalance 1 300, .writeRecord 0, .commit]
    (by decide)
  exact ⟨h.2.1 (by decide) (by decide) (by decide), h.2.2.2⟩

/-- C3: every successful Transfer appends exactly two records — the debit on
the source wallet and the credit on the destination — whose amounts sum to
zero, which share the same from/to wallet pair, which carry distinct
transaction identifiers, and of which the debit record is the returned one. -/
theorem transfer_two_records (fp : TransferFaultProfile) (st : EngineState)
    (f t : Nat) (a : ℚ) (d : String) (txn : Transaction) (st' : EngineState)
    (ev : List Event) (h : Transfer fp st f t a d = (.ok txn, st', ev)) :
    ∃ debit credit,
      st'.transactions = st.transactions ++ [debit, credit] ∧
      debit.walletID = f ∧ credit.walletID = t ∧
      debit.amount = -(DollarsToMinorUnits a) ∧
      credit.amount = DollarsToMinorUnits a ∧
      debit.amount + credit.amount = 0 ∧
      debit.fromWalletID = some f ∧ debit.toWalletID = some t ∧
      credit.fromWalletID = some f ∧ credit.toWalletID = some t ∧
      debit.transactionUUID ≠ credit.transactionUUID ∧
      txn = debit := by
  obtain ⟨hpos, hne, fromWallet, hf, h2⟩ := Transfer_ok h
  obtain ⟨toWallet, ht, h3⟩ := transferWithSource_ok h2
  obtain ⟨hbal, htxn, hwal, htx⟩ := transferLocked_ok h3
  refine ⟨transferDebitRecord st f t a d fromWallet,
    transferCreditRecord st f t a d toWallet,
    htx, rfl, rfl, rfl, rfl, by simp [transferDebitRecord, transferCreditRecord],
    rfl, rfl, rfl, rfl,
    by simp [transferDebitRecord, transferCreditRecord], htxn⟩

/-- Concrete check of the C3 theorem: the 1-dollar transfer from wallet 1 to
wallet 2 on the example state, with the two produced records spelled out. -/
theorem transfer_two_records_witness :
    ∃ debit credit,
      (⟨[1, 2], [⟨1, 1, 0⟩, ⟨2, 2, 150⟩],
        [⟨1, .transfer, -100, 100, 0, some 1, some 2, 0, "w", 0⟩,
         ⟨2, .transfer, 100, 50, 150, some 1, some 2, 1, "w", 0⟩],
        3, 2, 0, [], false⟩ : EngineState).transactions =
        exState.transactions ++ [debit, credit] ∧
      debit.walletID = 1 ∧ credit.walletID = 2 ∧
      debit.amount = -(DollarsToMinorUnits 1) ∧
      credit.amount = DollarsToMinorUnits 1 ∧
      debit.amount + credit.amount = 0 ∧
      debit.fromWalletID = some 1 ∧ debit.toWalletID = some 2 ∧
      credit.fromWalletID = some 1 ∧ credit.toWalletID = some 2 ∧
      debit.transactionUUID ≠ credit.transactionUUID ∧
      (⟨1, .transfer, -100, 100, 0, some 1, some 2, 0, "w", 0⟩ : Transaction) =
        debit :=
  transfer_two_records noTransferFaults exState 1 2 1 "w"
    ⟨1, .transfer, -100, 100, 0, some 1, some 2, 0, "w", 0⟩
    ⟨[1, 2], [⟨1, 1, 0⟩, ⟨2, 2, 150⟩],
     [⟨1, .transfer, -100, 100, 0, some 1, some 2, 0, "w", 0⟩,
      ⟨2, .transfer, 100, 50, 150, some 1, some 2, 1, "w", 0⟩],
     3, 2, 0, [], false⟩
    [.beginTx, .lockRead 1, .lockRead 2, .writeBalance 1 0, .writeBalance 2 150,
     .writeRecord 0, .writeRecord 1, .commit]
    (by decide)

/-- C4: a Transfer whose source balance is strictly below the converted
amount fails with InsufficientFunds and rolls its storage transaction back:
the state (both balances and the ledger) is returned unchanged and the event
trace contains no write. -/
theorem transfer_insufficient_funds_rollback (fp : TransferFaultProfile)
    (st : EngineState) (f t : Nat) (a : ℚ) (d : String)
    (fromWallet toWallet : Wallet)
    (hpos : ¬ a ≤ 0) (hne : f ≠ t)
    (hrf : fp.readFromFault = false) (hrt : fp.readToFault = false)
    (hf : findWallet st.wallets f = some fromWallet)
    (ht : findWallet st.wallets t = some toWallet)
    (hlt : fromWallet.balance < DollarsToMinorUnits a) :
    Transfer fp st f t a d =
      (.error .insufficientBalance, st,
       [.beginTx, .lockRead f, .lockRead t, .rollback]) := by
  simp [Transfer, transferWithSource, transferLocked, hpos, hne, hrf, hrt,
    hf, ht, hlt]

/-- Concrete check of the C4 theorem: spec example 3, a 1000-dollar transfer
out of a wallet holding 125.25. -/
theorem transfer_insufficient_funds_rollback_witness :
    Transfer noTransferFaults exState3 1 2 1000 "x" =
      (.error .insufficientBalance, exState3,
       [.beginTx, .lockRead 1, .lockRead 2, .rollback]) :=
  transfer_insufficient_funds_rollback noTransferFaults exState3 1 2 1000 "x"
    ⟨1, 1, 12525⟩ ⟨2, 2, 5025⟩ (by norm_num) (by decide) rfl rfl (by decide)
    (by decide) (by decide)

/-- C6: Deposit with a non-positive amount fails with InvalidAmount before
any storage access: the state is unchanged and the storage-event trace is
empty (no transaction opened, no lock taken, nothing read or written). -/
theorem deposit_nonpositive_rejected_before_storage (fp : FaultProfile)
    (st : EngineState) (wid : Nat) (a : ℚ) (d : String) (h : a ≤ 0) :
    Deposit fp st wid a d = (.error .invalidAmount, st, []) := by
  unfold Deposit
  rw [if_pos h]

/-- Concrete check of the C6 theorem: spec example 4, a zero-amount deposit. -/
theorem deposit_nonpositive_rejected_before_storage_witness :
    Deposit noFaults exState 1 0 "d" = (.error .invalidAmount, exState, []) :=
  deposit_nonpositive_rejected_before_storage noFaults exState 1 0 "d"
    (by norm_num)

/-- C10: Deposit validates positivity on the dollar amount and only then
truncates toward zero to minor units, so a deposit of a positive amount
below one minor unit succeeds, leaves the balance unchanged, and writes a
record with amount 0 and balance_after equal to balance_before. -/
theorem deposit_subcent_truncation (st : EngineState) (wid : Nat) (w : Wallet)
    (a : ℚ) (d : String) (hw : findWallet st.wallets wid = some w)
    (h1 : 0 < a) (h2 : a * 100 < 1) :
    ∃ txn st' ev, Deposit noFaults st wid a d = (.ok txn, st', ev) ∧
      txn.amount = 0 ∧ txn.balanceBefore = w.balance ∧
      txn.balanceAfter = txn.balanceBefore ∧
      (findWallet st'.wallets wid).map Wallet.balance = some w.balance := by
  have hz : DollarsToMinorUnits a = 0 := DollarsToMinorUnits_eq_zero h1 h2
  have hd := Deposit_success noFaults st wid a d w (not_le.2 h1) rfl rfl rfl hw
  refine ⟨_, _, _, hd, by simp [depositRecord, hz], by simp [depositRecord],
    by simp [depositRecord, hz, addInt64_zero], ?_⟩
  simp only [invalidateTransactionCache_wallets, invalidateWalletCache_wallets]
  rw [findWallet_updateWalletBalance_self, hw]
  simp [hz, addInt64_zero]

/-- Concrete check of the C10 theorem: a deposit of 0.004 dollars on wallet 1
of the example state. -/
theorem deposit_subcent_truncation_witness :
    ∃ txn st' ev, Deposit noFaults exState 1 (1/250) "d" = (.ok txn, st', ev) ∧
      txn.amount = 0 ∧ txn.balanceBefore = (100 : ℤ) ∧
      txn.balanceAfter = txn.balanceBefore ∧
      (findWallet st'.wallets 1).map Wallet.balance = some 100 :=
  deposit_subcent_truncation exState 1 ⟨1, 1, 100⟩ (1/250) "d" (by decide)
    (by norm_num) (by norm_num)

/-- C5 counterexample: on the two-wallet example state, Transfer(1,2)
lock-reads wallet 1 then wallet 2, while Transfer(2,1) lock-reads wallet 2
then wallet 1: the two calls do not acquire the locks on the same pair of
wallets in the same order, so lock acquisition does not follow a total order
independent of argument order. -/
theorem transfer_lock_order_argument_dependent :
    lockReads (Transfer noTransferFaults exState 1 2 1 "x").2.2 = [1, 2] ∧
    lockReads (Transfer noTransferFaults exState 2 1 1 "x").2.2 = [2, 1] ∧
    ([1, 2] : List Nat) ≠ [2, 1] := by decide

/-- C5 amended: Transfer acquires its two exclusive row locks in caller
argument order — the source wallet of the call first, then the destination
(`transferLockOrder`) — so Transfer(A,B) and Transfer(B,A) lock the same pair
in opposite orders; no canonical ordering independent of the arguments is
imposed. -/
theorem transfer_lock_order_caller_order (fp : TransferFaultProfile)
    (st : EngineState) (f t : Nat) (a : ℚ) (d : String)
    (fromWallet toWallet : Wallet)
    (hpos : ¬ a ≤ 0) (hne : f ≠ t)
    (hrf : fp.readFromFault = false) (hrt : fp.readToFault = false)
    (hf : findWallet st.wallets f = some fromWallet)
    (ht : findWallet st.wallets t = some toWallet) :
    lockReads (Transfer fp st f t a d).2.2 = transferLockOrder f t := by
  have hred : Transfer fp st f t a d =
      transferLocked fp st f t a d fromWallet toWallet := by
    simp [Transfer, transferWithSource, hpos, hne, hrf, hrt, hf, ht]
  rw [hred, transferLocked_lockReads]
  rfl

/-- Concrete check of the C5 amended theorem on the example state. -/
theorem transfer_lock_order_caller_order_witness :
    lockReads (Transfer noTransferFaults exState 1 2 1 "x").2.2 =
      transferLockOrder 1 2 :=
  transfer_lock_order_caller_order noTransferFaults exState 1 2 1 "x"
    ⟨1, 1, 100⟩ ⟨2, 2, 50⟩ (by norm_num) (by decide) rfl rfl (by decide)
    (by decide)

/-- C7: Deposit on an absent wallet aborts its storage transaction and
signals the record-not-found outcome (gorm's ErrRecordNotFound propagated,
distinguishable from StorageFailure); any injected storage fault aborts with
StorageFailure; and every failing Deposit returns the initial state
(rollback): no balance change and no record persists. -/
theorem deposit_not_found_and_fault_rollback (fp : FaultProfile)
    (st : EngineState) (wid : Nat) (a : ℚ) (d : String) (hpos : 0 < a) :
    (fp.readFault = false → findWallet st.wallets wid = none →
      Deposit fp st wid a d =
        (.error .recordNotFound, st, [.beginTx, .rollback])) ∧
    (fp.readFault = true →
      Deposit fp st wid a d =
        (.error .storageFault, st, [.beginTx, .rollback])) ∧
    (∀ wallet, findWallet st.wallets wid = some wallet →
      fp.readFault = false → fp.updateFault = true →
      Deposit fp st wid a d =
        (.error .storageFault, st, [.beginTx, .lockRead wid, .rollback])) ∧
    (∀ wallet, findWallet st.wallets wid = some wallet →
      fp.readFault = false → fp.updateFault = false → fp.createFault = true →
      Deposit fp st wid a d =
        (.error .storageFault, st,
         [.beginTx, .lockRead wid,
          .writeBalance wid (addInt64 wallet.balance (DollarsToMinorUnits a)),
          .rollback])) ∧
    (∀ e st' ev, Deposit fp st wid a d = (.error e, st', ev) → st' = st) ∧
    Err.recordNotFound ≠ Err.storageFault := by
  have hp : ¬ a ≤ 0 := not_le.2 hpos
  refine ⟨?_, ?_, ?_, ?_, fun e st' ev h => Deposit_rollback h, by decide⟩
  · intro hrf hw
    simp [Deposit, hp, hrf, hw]
  · intro hrf
    simp [Deposit, hp, hrf]
  · intro wallet hw hrf huf
    simp [Deposit, hp, hrf, hw, huf]
  · intro wallet hw hrf huf hcf
    simp [Deposit, hp, hrf, hw, huf, hcf]

/-- Concrete check of the C7 theorem: wallet 99 does not exist in the
example state. -/
theorem deposit_not_found_and_fault_rollback_witness :
    ((noFaults.readFault = false → findWallet exState.wallets 99 = none →
      Deposit noFaults exState 99 5 "d" =
        (.error .recordNotFound, exState, [.beginTx, .rollback])) ∧
    (noFaults.readFault = true →
      Deposit noFaults exState 99 5 "d" =
        (.error .storageFault, exState, [.beginTx, .rollback])) ∧
    (∀ wallet, findWallet exState.wallets 99 = some wallet →
      noFaults.readFault = false → noFaults.updateFault = true →
      Deposit noFaults exState 99 5 "d" =
        (.error .storageFault, exState, [.beginTx, .lockRead 99, .rollback])) ∧
    (∀ wallet, findWallet exState.wallets 99 = some wallet →
      noFaults.readFault = false → noFaults.updateFault = false →
      noFaults.createFault = true →
      Deposit noFaults exState 99 5 "d" =
        (.error .storageFault, exState,
         [.beginTx, .lockRead 99,
          .writeBalance 99 (addInt64 wallet.balance (DollarsToMinorUnits 5)),
          .rollback])) ∧
    (∀ e st' ev, Deposit noFaults exState 99 5 "d" = (.error e, st', ev) →
      st' = exState) ∧
    Err.recordNotFound ≠ Err.storageFault) :=
  deposit_not_found_and_fault_rollback noFaults exState 99 5 "d" (by norm_num)

/-- C8: GetWallet consults the cache first: a valid hit is returned directly
with no storage read and no cache write; a miss, a cache fault, and a
non-deserializable entry are all treated alike, falling through to a storage
read that populates the cache under the wallet's key with the five-minute
(300 second) TTL; a wallet absent from storage fails with the
record-not-found outcome. -/
theorem get_wallet_cache_aside (st : EngineState) (wid : Nat) :
    (∀ w, cacheGet st (walletCacheKey wid) = .hit (.walletVal w) →
      GetWallet st wid = (.ok w, st)) ∧
    (validWalletHit CacheResult.miss = none ∧
     validWalletHit CacheResult.fault = none ∧
     validWalletHit (CacheResult.hit .corrupt) = none) ∧
    (validWalletHit (cacheGet st (walletCacheKey wid)) = none →
      (∀ w, findWallet st.wallets wid = some w →
        GetWallet st wid =
          (.ok w, cacheSet st (walletCacheKey wid) (.walletVal w) 300)) ∧
      (findWallet st.wallets wid = none →
        GetWallet st wid = (.error .recordNotFound, st))) := by
  refine ⟨?_, ⟨rfl, rfl, rfl⟩, ?_⟩
  · intro w hw
    simp [GetWallet, hw, validWalletHit]
  · intro hmiss
    constructor
    · intro w hw
      simp [GetWallet, hmiss, hw]
    · intro hw
      simp [GetWallet, hmiss, hw]

/-- Concrete check of the C8 theorem: with the cache gateway down, GetWallet
degrades to the storage read and still answers. -/
theorem get_wallet_cache_aside_witness :
    GetWallet exDownState 1 =
      (.ok ⟨1, 1, 100⟩,
       cacheSet exDownState (walletCacheKey 1) (.walletVal ⟨1, 1, 100⟩) 300) :=
  ((get_wallet_cache_aside exDownState 1).2.2 rfl).1 ⟨1, 1, 100⟩ rfl

theorem digitChar_inj_lt {x y : Nat} (hx : x < 10) (hy : y < 10)
    (h : Nat.digitChar x = Nat.digitChar y) : x = y := by
  interval_cases x <;> interval_cases y <;> revert h <;> decide

theorem digitChar_ne_colon {x : Nat} (hx : x < 10) :
    Nat.digitChar x ≠ ':' := by
  interval_cases x <;> decide

theorem natStr_ne_colon (n : Nat) : ∀ c ∈ natStr n, c ≠ ':' := by
  intro c hc
  unfold natStr at hc
  split at hc
  · simp at hc
    subst hc
    decide
  · simp only [List.mem_reverse, List.mem_map] at hc
    obtain ⟨d, hd, rfl⟩ := hc
    exact digitChar_ne_colon (Nat.digits_lt_base (by norm_num) hd)

theorem map_digitChar_inj : ∀ (l1 l2 : List Nat), (∀ d ∈ l1, d < 10) →
    (∀ d ∈ l2, d < 10) →
    l1.map Nat.digitChar = l2.map Nat.digitChar → l1 = l2 := by
  intro l1
  induction l1 with
  | nil =>
    intro l2 _ _ h
    cases l2 with
    | nil => rfl
    | cons y ys => simp at h
  | cons x xs ih =>
    intro l2 h1 h2 h
    cases l2 with
    | nil => simp at h
    | cons y ys =>
      simp only [List.map_cons, List.cons.injEq] at h
      have hx := digitChar_inj_lt (h1 x (by simp)) (h2 y (by simp)) h.1
      have hrest := ih ys (fun d hd => h1 d (by simp [hd]))
        (fun d hd => h2 d (by simp [hd])) h.2
      simp [hx, hrest]

theorem natStr_injective {m n : Nat} (h : natStr m = natStr n) : m = n := by
  unfold natStr at h
  by_cases hm : m = 0 <;> by_cases hn : n = 0
  · exact hm.trans hn.symm
  · exfalso
    rw [if_pos hm, if_neg hn] at h
    have h2 : (Nat.digits 10 n).map Nat.digitChar = ['0'] := by
      have := congrArg List.reverse h
      simpa using this.symm
    cases hdig : Nat.digits 10 n with
    | nil => simp [hdig] at h2
    | cons d rest =>
      rw [hdig] at h2
      simp only [List.map_cons, List.cons.injEq] at h2
      have hrest : rest = [] := by
        have := h2.2
        cases rest with
        | nil => rfl
        | cons e es => simp at this
      subst hrest
      have hd10 : d < 10 :=
        @Nat.digits_lt_base 10 n d (by norm_num) (by rw [hdig]; simp)
      have hd0 : d = 0 := digitChar_inj_lt hd10 (by norm_num) (h2.1.trans rfl)
      subst hd0
      have := Nat.ofDigits_digits 10 n
      rw [hdig] at this
      simp [Nat.ofDigits] at this
      exact hn this.symm
  · exfalso
    rw [if_neg hm, if_pos hn] at h
    have h2 : (Nat.digits 10 m).map Nat.digitChar = ['0'] := by
      have := congrArg List.reverse h
      simpa using this
    cases hdig : Nat.digits 10 m with
    | nil => simp [hdig] at h2
    | cons d rest =>
      rw [hdig] at h2
      simp only [List.map_cons, List.cons.injEq] at h2
      have hrest : rest = [] := by
        have := h2.2
        cases rest with
        | nil => rfl
        | cons e es => simp at this
      subst hrest
      have hd10 : d < 10 :=
        @Nat.digits_lt_base 10 m d (by norm_num) (by rw [hdig]; simp)
      have hd0 : d = 0 := digitChar_inj_lt hd10 (by norm_num) (h2.1.trans rfl)
      subst hd0
      have := Nat.ofDigits_digits 10 m
      rw [hdig] at this
      simp [Nat.ofDigits] at this
      exact hm this.symm
  · rw [if_neg hm, if_neg hn] at h
    have h2 := List.reverse_injective h
    have h3 := map_digitChar_inj (Nat.digits 10 m) (Nat.digits 10 n)
      (fun d hd => Nat.digits_lt_base (by norm_num) hd)
      (fun d hd => Nat.digits_lt_base (by norm_num) hd) h2
    have h4 := Nat.ofDigits_digits 10 m
    rw [h3, Nat.ofDigits_digits] at h4
    exact h4.symm

theorem append_colon_inj : ∀ (a1 : List Char) {a2 b1 b2 : List Char},
    (∀ c ∈ a1, c ≠ ':') → (∀ c ∈ a2, c ≠ ':') →
    a1 ++ ':' :: b1 = a2 ++ ':' :: b2 → a1 = a2 ∧ b1 = b2 := by
  intro a1
  induction a1 with
  | nil =>
    intro a2 b1 b2 _ h2 h
    cases a2 with
    | nil => simpa using h
    | cons y ys =>
      simp only [List.nil_append, List.cons_append, List.cons.injEq] at h
      exact absurd h.1.symm (h2 y (by simp))
  | cons x xs ih =>
    intro a2 b1 b2 h1 h2 h
    cases a2 with
    | nil =>
      simp only [List.nil_append, List.cons_append, List.cons.injEq] at h
      exact absurd h.1 (h1 x (by simp))
    | cons y ys =>
      simp only [List.cons_append, List.cons.injEq] at h
      obtain ⟨hxy, h⟩ := h
      obtain ⟨h3, h4⟩ := ih (fun c hc => h1 c (by simp [hc]))
        (fun c hc => h2 c (by simp [hc])) h
      exact ⟨by rw [hxy, h3], h4⟩

theorem txCacheKey_injective {w1 l1 o1 w2 l2 o2 : Nat}
    (h : txCacheKey w1 l1 o1 = txCacheKey w2 l2 o2) :
    w1 = w2 ∧ l1 = l2 ∧ o1 = o2 := by
  unfold txCacheKey at h
  simp only [List.append_assoc, List.singleton_append, List.cons_append,
    List.cons.injEq, true_and] at h
  obtain ⟨hw, h2⟩ := append_colon_inj (natStr w1) (natStr_ne_colon w1)
    (natStr_ne_colon w2) h
  simp only [List.cons.injEq, true_and] at h2
  obtain ⟨hl, h4⟩ := append_colon_inj (natStr l1) (natStr_ne_colon l1)
    (natStr_ne_colon l2) h2
  exact ⟨natStr_injective hw, natStr_injective hl, natStr_injective h4⟩

theorem ordersByCreatedDesc_page_sorted {txs rows : List Transaction}
    {wid : Nat} (h : ordersByCreatedDesc txs wid rows) (limit offset : Nat) :
    (GetByWalletID rows limit offset).Pairwise
      (fun x y => y.createdAt ≤ x.createdAt) := by
  unfold GetByWalletID
  exact List.Pairwise.sublist
    ((List.take_sublist _ _).trans (List.drop_sublist _ _)) h.2

theorem ordersByCreatedDesc_mem {txs rows : List Transaction} {wid : Nat}
    (h : ordersByCreatedDesc txs wid rows) (t : Transaction) :
    t ∈ rows ↔ t ∈ txs ∧ t.walletID = wid := by
  rw [h.1.mem_iff, List.mem_filter]
  simp

/-- C9 counterexample: two records of wallet 1 share creation time 7; the
row order [second, first] — the reverse of insertion order — satisfies
everything the query's `ORDER BY created_at DESC` requires (a sorted
permutation of the wallet's records), and the repository then returns the
page [second, first]: the program does not guarantee ties broken by
insertion order. -/
theorem get_transactions_tie_order_not_guaranteed :
    ordersByCreatedDesc
      [⟨1, .deposit, 5, 0, 5, none, none, 0, "a", 7⟩,
       ⟨1, .deposit, 5, 5, 10, none, none, 1, "b", 7⟩] 1
      [⟨1, .deposit, 5, 5, 10, none, none, 1, "b", 7⟩,
       ⟨1, .deposit, 5, 0, 5, none, none, 0, "a", 7⟩] ∧
    GetByWalletID
      [⟨1, .deposit, 5, 5, 10, none, none, 1, "b", 7⟩,
       ⟨1, .deposit, 5, 0, 5, none, none, 0, "a", 7⟩] 10 0 =
      [⟨1, .deposit, 5, 5, 10, none, none, 1, "b", 7⟩,
       ⟨1, .deposit, 5, 0, 5, none, none, 0, "a", 7⟩] ∧
    ([⟨1, .deposit, 5, 5, 10, none, none, 1, "b", 7⟩,
      ⟨1, .deposit, 5, 0, 5, none, none, 0, "a", 7⟩] : List Transaction) ≠
      [⟨1, .deposit, 5, 0, 5, none, none, 0, "a", 7⟩,
       ⟨1, .deposit, 5, 5, 10, none, none, 1, "b", 7⟩] := by
  refine ⟨⟨List.Perm.swap _ _ _, by simp⟩, rfl, by decide⟩

/-- C9 amended: every row order admissible under the repository query's
`ORDER BY created_at DESC` is sorted strictly descending by creation time
and contains exactly the wallet's records, and the returned offset/limit
page inherits that order — but the query has no secondary sort key, so the
order among records with equal creation time is not specified (in
particular not necessarily insertion order); each distinct
(wallet_id, limit, offset) window is cached under its own key (the key
function is injective), and on a non-hit GetTransactions caches the queried
page under exactly that key with the two-minute TTL. -/
theorem get_transactions_order_and_cache_keys :
    (∀ (txs rows : List Transaction) (wid limit offset : Nat),
      ordersByCreatedDesc txs wid rows →
      (GetByWalletID rows limit offset).Pairwise
        (fun x y => y.createdAt ≤ x.createdAt)) ∧
    (∀ (txs rows : List Transaction) (wid : Nat),
      ordersByCreatedDesc txs wid rows →
      ∀ t, t ∈ rows ↔ t ∈ txs ∧ t.walletID = wid) ∧
    (∀ w1 l1 o1 w2 l2 o2 : Nat, txCacheKey w1 l1 o1 = txCacheKey w2 l2 o2 →
      w1 = w2 ∧ l1 = l2 ∧ o1 = o2) ∧
    (∀ (st : EngineState) (wid limit offset : Nat) (rows : List Transaction),
      validTxsHit (cacheGet st (txCacheKey wid limit offset)) = none →
      GetTransactions st wid limit offset rows =
        (.ok (GetByWalletID rows limit offset),
         cacheSet st (txCacheKey wid limit offset)
           (.txsVal (GetByWalletID rows limit offset)) 120)) := by
  refine ⟨fun txs rows wid limit offset h =>
      ordersByCreatedDesc_page_sorted h limit offset,
    fun txs rows wid h t => ordersByCreatedDesc_mem h t,
    fun _ _ _ _ _ _ h => txCacheKey_injective h, ?_⟩
  intro st wid limit offset rows hm
  simp [GetTransactions, hm]

/-- Concrete check of the C9 amended theorem: a database row order with the
tie reversed still yields a sorted page containing the wallet's records,
distinct windows have distinct keys, and with the cache down GetTransactions
degrades to the repository page. -/
theorem get_transactions_order_and_cache_keys_witness :
    ((GetByWalletID
        [⟨1, .deposit, 5, 5, 10, none, none, 1, "b", 7⟩,
         ⟨1, .deposit, 5, 0, 5, none, none, 0, "a", 7⟩] 10 0).Pairwise
      (fun x y => y.createdAt ≤ x.createdAt)) ∧
    ((⟨1, .deposit, 5, 0, 5, none, none, 0, "a", 7⟩ : Transaction) ∈
        ([⟨1, .deposit, 5, 5, 10, none, none, 1, "b", 7⟩,
          ⟨1, .deposit, 5, 0, 5, none, none, 0, "a", 7⟩] : List Transaction) ↔
      (⟨1, .deposit, 5, 0, 5, none, none, 0, "a", 7⟩ : Transaction) ∈
          ([⟨1, .deposit, 5, 0, 5, none, none, 0, "a", 7⟩,
            ⟨1, .deposit, 5, 5, 10, none, none, 1, "b", 7⟩] : List Transaction) ∧
        (⟨1, .deposit, 5, 0, 5, none, none, 0, "a", 7⟩ :
          Transaction).walletID = 1) ∧
    ((1 : Nat) = 1 ∧ (2 : Nat) = 2 ∧ (3 : Nat) = 3) ∧
    GetTransactions exDownState 1 10 0
        [⟨1, .deposit, 5, 0, 5, none, none, 0, "a", 7⟩,
         ⟨1, .deposit, 5, 5, 10, none, none, 1, "b", 7⟩] =
      (.ok (GetByWalletID
          [⟨1, .deposit, 5, 0, 5, none, none, 0, "a", 7⟩,
           ⟨1, .deposit, 5, 5, 10, none, none, 1, "b", 7⟩] 10 0),
       cacheSet exDownState (txCacheKey 1 10 0)
         (.txsVal (GetByWalletID
           [⟨1, .deposit, 5, 0, 5, none, none, 0, "a", 7⟩,
            ⟨1, .deposit, 5, 5, 10, none, none, 1, "b", 7⟩] 10 0)) 120) := by
  refine ⟨get_transactions_order_and_cache_keys.1
      [⟨1, .deposit, 5, 0, 5, none, none, 0, "a", 7⟩,
       ⟨1, .deposit, 5, 5, 10, none, none, 1, "b", 7⟩]
      [⟨1, .deposit, 5, 5, 10, none, none, 1, "b", 7⟩,
       ⟨1, .deposit, 5, 0, 5, none, none, 0, "a", 7⟩] 1 10 0
      ⟨List.Perm.swap _ _ _, by simp⟩,
    get_transactions_order_and_cache_keys.2.1
      [⟨1, .deposit, 5, 0, 5, none, none, 0, "a", 7⟩,
       ⟨1, .deposit, 5, 5, 10, none, none, 1, "b", 7⟩]
      [⟨1, .deposit, 5, 5, 10, none, none, 1, "b", 7⟩,
       ⟨1, .deposit, 5, 0, 5, none, none, 0, "a", 7⟩] 1
      ⟨List.Perm.swap _ _ _, by simp⟩ _,
    get_transactions_order_and_cache_keys.2.2.1 1 2 3 1 2 3 rfl,
    get_transactions_order_and_cache_keys.2.2.2 exDownState 1 10 0 _ rfl⟩

end WalletSpec
